import Mathlib

/-!
Verification of the HTML-to-Markdown extraction pipeline of the Bitrix
course downloader (`scripts/bitrix_course_parser_standalone.py`, with the
`scripts/bitrix_course_parser.py` and `scripts/bitrix_parser_final.py`
variants where the claims cite them).

The embedding follows the source closely: each Python parser class becomes
a structure holding the instance attributes, and each `handle_*` callback
becomes a state-transition function on that structure.  The event stream
that Python's `html.parser.HTMLParser` feeds to the callbacks is modelled
by the `HEvent` type; a whole page is a `List HEvent` folded through the
callbacks, exactly as `feed` dispatches them in document order.

Python string primitives (`str.strip`, `str.lower`, `in`, `startswith`,
`endswith`, `len`) are re-implemented by structural recursion over the
character list of a `String` so that all definitions evaluate inside the
kernel.  Python's `len` counts characters, as `List.length` over `toList`
does.
-/

/-- Whitespace as Python's `str.strip` removes it (the ASCII whitespace
characters; exotic Unicode spaces are out of scope for this markup). -/
def isSpaceChar (c : Char) : Bool :=
  c == ' ' || c == '\t' || c == '\n' || c == '\r' || c == '\x0b' || c == '\x0c'

/-- Python `str.strip()`: drop whitespace from both ends. -/
def pyStrip (s : String) : String :=
  String.mk (((s.toList.dropWhile isSpaceChar).reverse.dropWhile isSpaceChar).reverse)

/-- Python `str.lower()` (ASCII case folding, as the hrefs involved are ASCII). -/
def pyLower (s : String) : String := String.mk (s.toList.map Char.toLower)

/-- Does the first list start with the second list's elements? -/
def listStartsWith : List Char → List Char → Bool
  | [], _ => true
  | _ :: _, [] => false
  | a :: as, b :: bs => a == b && listStartsWith as bs

/-- Does `pat` occur as a contiguous run inside `s`? -/
def listSub : List Char → List Char → Bool
  | pat, [] => listStartsWith pat []
  | pat, c :: cs => listStartsWith pat (c :: cs) || listSub pat cs

/-- Python `pat in s` on strings: substring containment. -/
def strContains (s pat : String) : Bool := listSub pat.toList s.toList

/-- Python `s.startswith(pre)`. -/
def pyStartsWith (s pre : String) : Bool := listStartsWith pre.toList s.toList

/-- Python `s.endswith(suf)`. -/
def pyEndsWith (s suf : String) : Bool :=
  listStartsWith suf.toList.reverse s.toList.reverse

/-- Python `len(s)`: the number of characters. -/
def pyLen (s : String) : Nat := s.toList.length

/-- One event of Python's `html.parser.HTMLParser` callback stream: a start
tag with its attribute list, a text node, or an end tag. -/
inductive HEvent where
  | start (tag : String) (attrs : List (String × String))
  | text (data : String)
  | endT (tag : String)
deriving DecidableEq

/-- The last `href` attribute value of an attribute list, as the Python
`for attr_name, attr_value in attrs: if attr_name == 'href': href = attr_value`
loop leaves it (later occurrences overwrite earlier ones). -/
def findHref (attrs : List (String × String)) : Option String :=
  attrs.foldl (fun acc p => if p.1 == "href" then some p.2 else acc) none

/-- Instance state of `MarkdownExtractorParser`
(`bitrix_course_parser_standalone.py`, lines 102-113).  The Python code
creates `current_link_href` / `current_link_text` together with `setattr`
and removes them together with `delattr`; the pair is modelled as one
`Option (href × text)` field standing for `hasattr(self, 'current_link_href')`. -/
structure MarkdownExtractorParser where
  headers : List String
  text_content : List String
  current_tag : Option String
  in_script : Bool
  in_style : Bool
  in_courses_right_side : Bool
  div_nesting_level : Int
  current_link : Option (String × String)
deriving DecidableEq

namespace MarkdownExtractorParser

/-- `MarkdownExtractorParser.__init__`. -/
def init : MarkdownExtractorParser :=
  { headers := [], text_content := [], current_tag := none,
    in_script := false, in_style := false, in_courses_right_side := false,
    div_nesting_level := 0, current_link := none }

/-- Does the attribute list carry `class` containing `courses-right-side`
(the loop at lines 121-125 of the standalone script)? -/
def hasMarker (attrs : List (String × String)) : Bool :=
  attrs.any (fun p => p.1 == "class" && strContains p.2 "courses-right-side")

/-- `MarkdownExtractorParser.handle_starttag` (lines 114-140). -/
def handle_starttag (s : MarkdownExtractorParser) (tag : String)
    (attrs : List (String × String)) : MarkdownExtractorParser :=
  let s := { s with current_tag := some tag }
  if tag == "script" then { s with in_script := true }
  else if tag == "style" then { s with in_style := true }
  else if tag == "div" then
    if hasMarker attrs then
      { s with in_courses_right_side := true, div_nesting_level := 1 }
    else if s.in_courses_right_side then
      { s with div_nesting_level := s.div_nesting_level + 1 }
    else s
  else if tag == "a" && !s.in_script && !s.in_style then
    match findHref attrs with
    | some href =>
        if pyStartsWith href "http" then { s with current_link := some (href, "") }
        else s
    | none => s
  else s

/-- Is the current tag one of `['h1', 'h2', 'h3', 'h4', 'h5', 'h6']`? -/
def isHeadingTag : Option String → Bool
  | some t => ["h1", "h2", "h3", "h4", "h5", "h6"].contains t
  | none => false

/-- `int(self.current_tag[1])`: the digit after the `h`. -/
def headingLevel (t : String) : Nat :=
  match t.toList with
  | _ :: c :: _ => c.toNat - '0'.toNat
  | _ => 0

/-- `'#' * level`. -/
def hashes (level : Nat) : String := String.mk (List.replicate level '#')

/-- `MarkdownExtractorParser.handle_data` (lines 142-160). -/
def handle_data (s : MarkdownExtractorParser) (data : String) :
    MarkdownExtractorParser :=
  if s.in_script || s.in_style then s
  else
    let text := pyStrip data
    if text == "" then s
    else if !s.in_courses_right_side then s
    else if isHeadingTag s.current_tag then
      let level := headingLevel (s.current_tag.getD "") + 1
      { s with headers := s.headers ++ [hashes level ++ " " ++ text] }
    else
      match s.current_link with
      | some (href, t) => { s with current_link := some (href, t ++ text) }
      | none => { s with text_content := s.text_content ++ [text] }

/-- `MarkdownExtractorParser.handle_endtag` (lines 162-180). -/
def handle_endtag (s : MarkdownExtractorParser) (tag : String) :
    MarkdownExtractorParser :=
  let s1 :=
    if tag == "script" then { s with in_script := false }
    else if tag == "style" then { s with in_style := false }
    else if tag == "div" && s.in_courses_right_side then
      let lvl := s.div_nesting_level - 1
      if lvl == 0 then
        { s with div_nesting_level := lvl, in_courses_right_side := false }
      else { s with div_nesting_level := lvl }
    else if tag == "a" then
      match s.current_link with
      | some (_, t) =>
          if t != "" then
            { s with text_content := s.text_content ++ ["**" ++ pyStrip t ++ "**"],
                     current_link := none }
          else { s with current_link := none }
      | none => s
    else s
  { s1 with current_tag := none }

/-- Dispatch of one parser event to the matching callback. -/
def step (s : MarkdownExtractorParser) : HEvent → MarkdownExtractorParser
  | .start tag attrs => handle_starttag s tag attrs
  | .text data => handle_data s data
  | .endT tag => handle_endtag s tag

/-- `feed` from a given state: the callbacks run in document order. -/
def feedFrom (s : MarkdownExtractorParser) (evs : List HEvent) :
    MarkdownExtractorParser :=
  evs.foldl step s

/-- `MarkdownExtractorParser(); parser.feed(content)` from a fresh instance. -/
def feed (evs : List HEvent) : MarkdownExtractorParser := feedFrom init evs

/-- Is `line` a substring of some recorded header entry?  This is the inner
loop of `get_markdown_content` (lines 215-219): Python's `line in header`
is substring containment against the rendered header string. -/
def isDupHeader (headers : List String) (line : String) : Bool :=
  headers.any (fun h => strContains h line)

/-- The body-line cleaning loop of `get_markdown_content` (lines 210-221):
strip each accumulated text, keep it when non-empty, longer than one
character and not a substring of any recorded header entry. -/
def cleanedLines (headers : List String) (tc : List String) : List String :=
  tc.filterMap fun l0 =>
    let line := pyStrip l0
    if line != "" && pyLen line > 1 then
      if isDupHeader headers line then none else some line
    else none

/-- `MarkdownExtractorParser.get_markdown_content` (lines 182-224). -/
def get_markdown_content (s : MarkdownExtractorParser) (url : String)
    (title : String := "Без названия") : String :=
  let md0 : List String :=
    ["# " ++ title, "", "## Метаданные", "", "- **URL:** " ++ url, "",
     "---", "", "## Содержимое", ""]
  let md1 := md0 ++ (if s.headers.isEmpty then [] else s.headers ++ [""])
  let md2 := md1 ++
    (if s.text_content.isEmpty then []
     else ["### Основной текст", ""] ++ cleanedLines s.headers s.text_content)
  String.intercalate "\n" md2

/-- `MarkdownExtractorParser.has_courses_right_side_content` (lines 226-234):
Python's `bool(self.headers or self.text_content)`. -/
def has_content (s : MarkdownExtractorParser) : Bool :=
  !s.headers.isEmpty || !s.text_content.isEmpty

end MarkdownExtractorParser

/-- The lesson-link selection test of `SimpleHTMLParser.handle_starttag`
(`bitrix_course_parser_standalone.py`, lines 54-62): the nested Python
`if href:` / link-pattern / `.css`-`.js` exclusion conditions. -/
def selectsHref (href : String) : Bool :=
  if href != "" then
    if strContains (pyLower href) "lesson" || strContains href "LESSON_ID" ||
        strContains href "CHAPTER_ID" ||
        (strContains href "/learning/course/" &&
          (strContains href "LESSON_ID=" || strContains href "CHAPTER_ID=")) then
      if !pyEndsWith href ".css" && !pyEndsWith href ".js" then true else false
    else false
  else false

/-- Instance state of `SimpleHTMLParser`
(`bitrix_course_parser_standalone.py`, lines 38-70). -/
structure SimpleHTMLParser where
  links : List String
  title : String
  in_title : Bool
deriving DecidableEq

namespace SimpleHTMLParser

/-- `SimpleHTMLParser.__init__`. -/
def init : SimpleHTMLParser := { links := [], title := "", in_title := false }

/-- `SimpleHTMLParser.handle_starttag` (lines 45-62). -/
def handle_starttag (s : SimpleHTMLParser) (tag : String)
    (attrs : List (String × String)) : SimpleHTMLParser :=
  if tag == "title" then { s with in_title := true }
  else if tag == "a" then
    match findHref attrs with
    | some href => if selectsHref href then { s with links := s.links ++ [href] } else s
    | none => s
  else s

/-- `SimpleHTMLParser.handle_data` (lines 64-66). -/
def handle_data (s : SimpleHTMLParser) (data : String) : SimpleHTMLParser :=
  if s.in_title then { s with title := s.title ++ pyStrip data } else s

/-- `SimpleHTMLParser.handle_endtag` (lines 68-70). -/
def handle_endtag (s : SimpleHTMLParser) (tag : String) : SimpleHTMLParser :=
  if tag == "title" then { s with in_title := false } else s

/-- Dispatch of one parser event to the matching callback. -/
def step (s : SimpleHTMLParser) : HEvent → SimpleHTMLParser
  | .start tag attrs => handle_starttag s tag attrs
  | .text data => handle_data s data
  | .endT tag => handle_endtag s tag

/-- `SimpleHTMLParser(); parser.feed(content)` from a fresh instance. -/
def feed (evs : List HEvent) : SimpleHTMLParser := evs.foldl step init

end SimpleHTMLParser

/-!
Crawl coordinator (`BitrixCourseParser.parse_course` in the standalone
script, lines 449-527).  Network, URL parsing of `urllib` and the file
system are the spec's external collaborators; they enter the model as
parameters: `fetch` returns the event stream of a page or `none` for any
fetch error caught by `get_page_content` (lines 316-324), `urljoin` stands
for `urllib.parse.urljoin`, and `baseUrl` for the
`scheme://netloc` string computed from the start URL.  File writes are
observed through the `saved_files` log (one entry per page
`save_page_content` actually wrote) and HTTP requests through the
`fetched_urls` log (one entry per `get_page_content` call). -/

/-- The mutable per-run state of `BitrixCourseParser` together with the
side-effect logs of the run. -/
structure CrawlState where
  downloaded_pages : Nat
  visited_urls : List String
  saved_files : List String
  fetched_urls : List String
deriving DecidableEq

/-- Resolution of one discovered href to an absolute URL
(`extract_course_info`, lines 350-356). -/
def resolveHref (baseUrl startUrl : String) (urljoin : String → String → String)
    (href : String) : String :=
  if pyStartsWith href "/" then baseUrl ++ href
  else if pyStartsWith href "http" then href
  else urljoin startUrl href

/-- The lesson-URL list `extract_course_info` builds from the raw links
(lines 348-378): skip falsy hrefs, resolve, deduplicate by exact resolved
URL keeping first-seen order.  The synthesized titles do not influence the
crawl loop (only `lesson['url']` is read there), so only URLs are kept. -/
def extractLessonUrls (baseUrl startUrl : String)
    (urljoin : String → String → String) (links : List String) : List String :=
  links.foldl
    (fun acc href =>
      if href == "" then acc
      else
        let u := resolveHref baseUrl startUrl urljoin href
        if acc.contains u then acc else acc ++ [u])
    []

/-- The truthiness test `if self.page_limit and self.downloaded_pages >=
self.page_limit` (line 506): `None` and `0` are falsy, so the comparison
only runs for a non-zero limit. -/
def limitReached (limit : Option Int) (downloaded : Nat) : Bool :=
  match limit with
  | none => false
  | some n => n != 0 && n ≤ (downloaded : Int)

/-- `save_page_content` (lines 381-447) as it affects the run: it writes a
Markdown file only when the `MarkdownExtractorParser` fed with the page
found `courses-right-side` content (the `has_courses_right_side_content`
guard at line 416 returns early otherwise). -/
def savePage (st : CrawlState) (url : String) (evs : List HEvent) : CrawlState :=
  if (MarkdownExtractorParser.feed evs).has_content then
    { st with saved_files := st.saved_files ++ [url] }
  else st

/-- The lesson loop of `parse_course` (lines 505-527): stop at the page
limit before fetching, skip visited URLs, skip lessons whose fetch fails,
and after a successful fetch save (when the region has content), count and
mark visited. -/
def processLessons (fetch : String → Option (List HEvent)) (limit : Option Int) :
    List String → CrawlState → CrawlState
  | [], st => st
  | url :: rest, st =>
    if limitReached limit st.downloaded_pages then st
    else if st.visited_urls.contains url then processLessons fetch limit rest st
    else
      let st1 := { st with fetched_urls := st.fetched_urls ++ [url] }
      match fetch url with
      | none => processLessons fetch limit rest st1
      | some evs =>
          let st2 := savePage st1 url evs
          let st3 := { st2 with downloaded_pages := st2.downloaded_pages + 1,
                                visited_urls := st2.visited_urls ++ [url] }
          processLessons fetch limit rest st3

/-- `BitrixCourseParser.parse_course` (lines 449-527): fetch the root page
(abort on failure), discover the lesson URLs with `SimpleHTMLParser` and
`extract_course_info`, save the root page, count it and mark it visited
unconditionally, then run the lesson loop. -/
def parseCourse (urljoin : String → String → String)
    (fetch : String → Option (List HEvent)) (limit : Option Int)
    (startUrl baseUrl : String) : CrawlState :=
  let st0 : CrawlState :=
    { downloaded_pages := 0, visited_urls := [], saved_files := [],
      fetched_urls := [startUrl] }
  match fetch startUrl with
  | none => st0
  | some evs =>
      let lessons :=
        extractLessonUrls baseUrl startUrl urljoin (SimpleHTMLParser.feed evs).links
      let st1 := savePage st0 startUrl evs
      let st2 := { st1 with downloaded_pages := st1.downloaded_pages + 1,
                            visited_urls := st1.visited_urls ++ [startUrl] }
      processLessons fetch limit lessons st2

/-- The Markdown rendering of `BitrixCourseParser.extract_markdown_content`
in `bitrix_course_parser.py` (lines 222-310), with the classified
sequences that the BeautifulSoup collaborator produces over the selected
content element abstracted as inputs: `headings` are the `(level, text)`
pairs of the found `h1`-`h6` elements, `links` the `(text, href)` pairs of
the kept absolute anchors, `bodyLines` the cleaned body text lines, and
`now` the `datetime.now().strftime(...)` timestamp string. -/
def renderMarkdownLines (title url now : String) (headings : List (Nat × String))
    (links : List (String × String)) (bodyLines : List String) : List String :=
  ("# " ++ title) :: "" :: "## Метаданные" :: "" ::
  ("- **URL:** " ++ url) :: ("- **Дата скачивания:** " ++ now) :: "" ::
  "---" :: "" :: "## Содержимое" :: "" ::
  ((headings.flatMap fun p =>
      [MarkdownExtractorParser.hashes (p.1 + 1) ++ " " ++ p.2, ""]) ++
   (if links.isEmpty then []
    else ["### Ссылки", ""] ++
      links.map (fun p => "- [" ++ p.1 ++ "](" ++ p.2 ++ ")") ++ [""]) ++
   (if bodyLines.isEmpty then [] else ["### Основной текст", ""] ++ bodyLines))

/-! ## Basic lemmas about the embedded callbacks -/

namespace MarkdownExtractorParser

lemma hasMarker_marker : hasMarker [("class", "courses-right-side")] = true := by decide

lemma hasMarker_nil : hasMarker [] = false := by decide

/-- Opening a marker-bearing `div` (re)enters the region and resets the
nesting depth to `1`, from any prior state. -/
lemma markerOpen_state (s : MarkdownExtractorParser) :
    handle_starttag s "div" [("class", "courses-right-side")] =
      { s with current_tag := some "div", in_courses_right_side := true,
               div_nesting_level := 1 } := by
  simp [handle_starttag, hasMarker_marker]

/-- Opening a plain (unmarked) `div` inside the region increments the
nesting depth. -/
lemma plainOpen_state (s : MarkdownExtractorParser)
    (h : s.in_courses_right_side = true) :
    handle_starttag s "div" [] =
      { s with current_tag := some "div",
               div_nesting_level := s.div_nesting_level + 1 } := by
  simp [handle_starttag, hasMarker_nil, h]

/-- Closing a `div` inside the region when the depth stays positive keeps
the region open. -/
lemma closeDiv_state (s : MarkdownExtractorParser)
    (h : s.in_courses_right_side = true) (hne : s.div_nesting_level - 1 ≠ 0) :
    handle_endtag s "div" =
      { s with current_tag := none,
               div_nesting_level := s.div_nesting_level - 1 } := by
  simp [handle_endtag, h, hne]

/-- Closing the last open `div` of the region exits the region. -/
lemma closeDiv_exit (s : MarkdownExtractorParser)
    (h : s.in_courses_right_side = true) (hz : s.div_nesting_level = 1) :
    handle_endtag s "div" =
      { s with current_tag := none, div_nesting_level := 0,
               in_courses_right_side := false } := by
  simp [handle_endtag, h, hz]

lemma feedFrom_nil (s : MarkdownExtractorParser) : feedFrom s [] = s := rfl

lemma feedFrom_cons (s : MarkdownExtractorParser) (e : HEvent) (evs : List HEvent) :
    feedFrom s (e :: evs) = feedFrom (step s e) evs := rfl

lemma feedFrom_append (s : MarkdownExtractorParser) (l1 l2 : List HEvent) :
    feedFrom s (l1 ++ l2) = feedFrom (feedFrom s l1) l2 := by
  simp [feedFrom, List.foldl_append]

lemma step_start (s : MarkdownExtractorParser) (t : String)
    (a : List (String × String)) : step s (.start t a) = handle_starttag s t a := rfl

lemma step_endT (s : MarkdownExtractorParser) (t : String) :
    step s (.endT t) = handle_endtag s t := rfl

/-- Feeding `K` plain `div` opens from inside the region keeps the region
open and raises the depth by `K`. -/
lemma feed_plainOpens (K : Nat) :
    ∀ s : MarkdownExtractorParser, s.in_courses_right_side = true →
      (feedFrom s (List.replicate K (.start "div" []))).in_courses_right_side = true ∧
      (feedFrom s (List.replicate K (.start "div" []))).div_nesting_level =
        s.div_nesting_level + (K : Int) := by
  induction K with
  | zero => intro s h; simp [feedFrom, h]
  | succ k ih =>
      intro s h
      rw [List.replicate_succ, feedFrom_cons, step_start, plainOpen_state s h]
      obtain ⟨h1, h2⟩ := ih { s with current_tag := some "div",
                                     div_nesting_level := s.div_nesting_level + 1 } (by simp [h])
      refine ⟨h1, ?_⟩
      rw [h2]
      push_cast
      ring

/-- Feeding `j` `div` closes from inside the region with depth above `j`
keeps the region open and lowers the depth by `j`. -/
lemma feed_closes_lt (j : Nat) :
    ∀ s : MarkdownExtractorParser, s.in_courses_right_side = true →
      (j : Int) < s.div_nesting_level →
      (feedFrom s (List.replicate j (.endT "div"))).in_courses_right_side = true ∧
      (feedFrom s (List.replicate j (.endT "div"))).div_nesting_level =
        s.div_nesting_level - (j : Int) := by
  induction j with
  | zero => intro s h _; simp [feedFrom, h]
  | succ k ih =>
      intro s h hlt
      rw [List.replicate_succ, feedFrom_cons, step_endT,
        closeDiv_state s h (by push_cast at hlt; omega)]
      obtain ⟨h1, h2⟩ := ih { s with current_tag := none,
                                     div_nesting_level := s.div_nesting_level - 1 }
        (by simp [h]) (by push_cast at hlt ⊢; omega)
      refine ⟨h1, ?_⟩
      rw [h2]
      push_cast
      ring

/-- Feeding exactly as many `div` closes as the current depth exits the
region. -/
lemma feed_closes_exact (n : Nat) (s : MarkdownExtractorParser)
    (h : s.in_courses_right_side = true) (hn : s.div_nesting_level = (n : Int))
    (hpos : 1 ≤ n) :
    (feedFrom s (List.replicate n (.endT "div"))).in_courses_right_side = false := by
  obtain ⟨m, rfl⟩ : ∃ m, n = m + 1 := ⟨n - 1, by omega⟩
  rw [List.replicate_succ', feedFrom_append]
  obtain ⟨h1, h2⟩ := feed_closes_lt m s h (by rw [hn]; push_cast; omega)
  have hone : (feedFrom s (List.replicate m (.endT "div"))).div_nesting_level = 1 := by
    rw [h2, hn]; push_cast; ring
  rw [show feedFrom (feedFrom s (List.replicate m (.endT "div"))) [.endT "div"] =
        handle_endtag (feedFrom s (List.replicate m (.endT "div"))) "div" from rfl,
    closeDiv_exit _ h1 hone]

end MarkdownExtractorParser

/-! ## Claim C1 — region nesting -/

/-- C1, counterexample.  The claim says the extractor "enters the region on
the marker-bearing open tag only if the region has not already been
entered" and "reports in_region=false only after exactly K+1 matching
closes".  `handle_starttag` (lines 119-132) has no such already-entered
guard: a marker-bearing `div` nested inside the region resets
`div_nesting_level` to `1` instead of incrementing it to `2`, so with
`K = 1` nested `div` pair the region is reported closed after a single
close instead of two. -/
theorem c1_region_nesting_counterexample :
    (MarkdownExtractorParser.feed
      [.start "div" [("class", "courses-right-side")],
       .start "div" [("class", "courses-right-side")]]).div_nesting_level = 1 ∧
    (MarkdownExtractorParser.feed
      [.start "div" [("class", "courses-right-side")],
       .start "div" [("class", "courses-right-side")],
       .endT "div"]).in_courses_right_side = false := by
  decide

/-- C1, amended.  For a designated region whose `K` nested same-kind
containers do not themselves carry the marker, the extractor stays in the
region through any `j ≤ K` closes and reports `in_region = false` exactly
after the `K+1`-st close; on any marker-bearing `div` open, however, the
code (re-)enters the region unconditionally, resetting the depth to `1`,
instead of checking whether the region has already been entered. -/
theorem c1_region_nesting_amended (K j : Nat) (hj : j ≤ K) :
    (MarkdownExtractorParser.feed
        (.start "div" [("class", "courses-right-side")] ::
          (List.replicate K (.start "div" []) ++
           List.replicate j (.endT "div")))).in_courses_right_side = true ∧
    (MarkdownExtractorParser.feed
        (.start "div" [("class", "courses-right-side")] ::
          (List.replicate K (.start "div" []) ++
           List.replicate (K + 1) (.endT "div")))).in_courses_right_side = false ∧
    ∀ s : MarkdownExtractorParser,
      (MarkdownExtractorParser.handle_starttag s "div"
        [("class", "courses-right-side")]).in_courses_right_side = true ∧
      (MarkdownExtractorParser.handle_starttag s "div"
        [("class", "courses-right-side")]).div_nesting_level = 1 := by
  have hmark : ∀ s : MarkdownExtractorParser,
      MarkdownExtractorParser.step s (.start "div" [("class", "courses-right-side")]) =
        { s with current_tag := some "div", in_courses_right_side := true,
                 div_nesting_level := 1 } := fun s => by
    rw [MarkdownExtractorParser.step_start, MarkdownExtractorParser.markerOpen_state]
  have hentered :
      (MarkdownExtractorParser.feedFrom
        (MarkdownExtractorParser.step MarkdownExtractorParser.init
          (.start "div" [("class", "courses-right-side")]))
        (List.replicate K (.start "div" []))).in_courses_right_side = true ∧
      (MarkdownExtractorParser.feedFrom
        (MarkdownExtractorParser.step MarkdownExtractorParser.init
          (.start "div" [("class", "courses-right-side")]))
        (List.replicate K (.start "div" []))).div_nesting_level = 1 + (K : Int) := by
    rw [hmark]
    exact MarkdownExtractorParser.feed_plainOpens K _ rfl
  refine ⟨?_, ?_, ?_⟩
  · rw [MarkdownExtractorParser.feed, MarkdownExtractorParser.feedFrom_cons,
      MarkdownExtractorParser.feedFrom_append]
    exact (MarkdownExtractorParser.feed_closes_lt j _ hentered.1
      (by rw [hentered.2]; omega)).1
  · rw [MarkdownExtractorParser.feed, MarkdownExtractorParser.feedFrom_cons,
      MarkdownExtractorParser.feedFrom_append]
    exact MarkdownExtractorParser.feed_closes_exact (K + 1) _ hentered.1
      (by rw [hentered.2]; push_cast; ring) (by omega)
  · intro s
    rw [MarkdownExtractorParser.markerOpen_state]
    exact ⟨rfl, rfl⟩

/-- C1 witness: the amended theorem at `K = 2`, `j = 1`. -/
theorem c1_region_nesting_amended_witness :
    (MarkdownExtractorParser.feed
        (.start "div" [("class", "courses-right-side")] ::
          (List.replicate 2 (.start "div" []) ++
           List.replicate 1 (.endT "div")))).in_courses_right_side = true ∧
    (MarkdownExtractorParser.feed
        (.start "div" [("class", "courses-right-side")] ::
          (List.replicate 2 (.start "div" []) ++
           List.replicate (2 + 1) (.endT "div")))).in_courses_right_side = false ∧
    ∀ s : MarkdownExtractorParser,
      (MarkdownExtractorParser.handle_starttag s "div"
        [("class", "courses-right-side")]).in_courses_right_side = true ∧
      (MarkdownExtractorParser.handle_starttag s "div"
        [("class", "courses-right-side")]).div_nesting_level = 1 :=
  c1_region_nesting_amended 2 1 (by omega)

/-! ## Claim C2 — heading classification -/

/-- C2, counterexample.  Two text fragments arriving under the same `h2`
open (as Python's `html.parser` delivers them when, e.g., a comment splits
the heading text) are recorded by `handle_data` (lines 154-156) as two
separate `headers` entries, not concatenated into a single heading entry
as the claim states. -/
theorem c2_heading_counterexample :
    (MarkdownExtractorParser.feed
      [.start "div" [("class", "courses-right-side")],
       .start "h2" [], .text "ab", .text "cd"]).headers = ["### ab", "### cd"] ∧
    (MarkdownExtractorParser.feed
      [.start "div" [("class", "courses-right-side")],
       .start "h2" [], .text "ab", .text "cd"]).headers.length ≠ 1 := by
  decide

/-- C2, amended.  Inside the region, with a heading tag `h1`-`h6` current
and outside `script`/`style`, every non-blank text fragment appends one
heading entry rendered at `source level + 1` hash marks, leaving the body
text unchanged; fragments under the same heading open therefore become
separate heading entries rather than one concatenated entry. -/
theorem c2_heading_level_amended (s : MarkdownExtractorParser)
    (data tag : String) (hr : s.in_courses_right_side = true)
    (hsc : s.in_script = false) (hst : s.in_style = false)
    (htag : s.current_tag = some tag)
    (hhead : MarkdownExtractorParser.isHeadingTag (some tag) = true)
    (hne : pyStrip data ≠ "") :
    (s.handle_data data).headers =
      s.headers ++
        [MarkdownExtractorParser.hashes (MarkdownExtractorParser.headingLevel tag + 1)
          ++ " " ++ pyStrip data] ∧
    (s.handle_data data).text_content = s.text_content := by
  rw [MarkdownExtractorParser.handle_data]
  simp [hr, hsc, hst, htag, hhead, hne]

/-- C2 witness: the amended theorem inside a freshly opened region under an
`h3` tag. -/
theorem c2_heading_level_amended_witness :
    ((MarkdownExtractorParser.feed
        [.start "div" [("class", "courses-right-side")],
         .start "h3" []]).handle_data " Intro ").headers =
      (MarkdownExtractorParser.feed
        [.start "div" [("class", "courses-right-side")],
         .start "h3" []]).headers ++
        [MarkdownExtractorParser.hashes (MarkdownExtractorParser.headingLevel "h3" + 1)
          ++ " " ++ pyStrip " Intro "] ∧
    ((MarkdownExtractorParser.feed
        [.start "div" [("class", "courses-right-side")],
         .start "h3" []]).handle_data " Intro ").text_content =
      (MarkdownExtractorParser.feed
        [.start "div" [("class", "courses-right-side")],
         .start "h3" []]).text_content :=
  c2_heading_level_amended _ " Intro " "h3" (by decide) (by decide) (by decide)
    (by decide) (by decide) (by decide)

/-! ## Claim C3 — body-line suppression against recorded headings -/

lemma listStartsWith_self : ∀ l : List Char, listStartsWith l l = true
  | [] => rfl
  | a :: as => by simp [listStartsWith, listStartsWith_self as]

lemma listSub_of_listStartsWith : ∀ p s : List Char,
    listStartsWith p s = true → listSub p s = true
  | p, [], h => h
  | p, c :: cs, h => by simp [listSub, h]

lemma listSub_append_left : ∀ (a p s : List Char),
    listSub p s = true → listSub p (a ++ s) = true
  | [], p, s, h => h
  | c :: cs, p, s, h => by
      simp only [List.cons_append, listSub, List.append_eq]
      rw [listSub_append_left cs p s h]
      simp

/-- The text of a rendered heading entry occurs as a substring of that
entry: `text` is contained in `prefixStr ++ text` in the sense of
Python's `in`. -/
lemma strContains_append_self (a b : String) : strContains (a ++ b) b = true := by
  show listSub b.toList (a ++ b).toList = true
  have : (a ++ b).toList = a.toList ++ b.toList := by
    simp [String.toList, String.data_append]
  rw [this]
  exact listSub_append_left _ _ _ (listSub_of_listStartsWith _ _ (listStartsWith_self _))

/-- C3, counterexample.  The cleaning loop of `get_markdown_content`
(lines 210-221) tests `line in header`, which is substring containment
against the rendered header entry: the qualifying body line `"Int"`, which
is not character-identical to the recorded heading text `"Intro"` (nor to
the entry `"### Intro"`), is nevertheless excluded from the final body
output, so "every other qualifying body line is retained" fails. -/
theorem c3_body_suppression_counterexample :
    MarkdownExtractorParser.cleanedLines ["### Intro"] ["Int"] = [] ∧
    ("Int" : String) ≠ "Intro" ∧ ("Int" : String) ≠ "### Intro" ∧
    pyStrip "Int" = "Int" ∧ pyLen "Int" > 1 := by
  decide

/-- C3, amended.  A line appears in the cleaned body output if and only
if it is the trimmed form of an accumulated body text, is non-empty and
longer than one character, and is a substring of no recorded heading
entry — in particular, any line occurring as a substring of some recorded
heading entry is excluded, and every other qualifying line is retained.
Since a heading's text is a substring of its rendered entry
(`'#' * level ++ " " ++ text`), a body line character-identical to a
recorded heading's text is always excluded, but so is any other body line
contained in a heading entry. -/
theorem c3_body_suppression_amended (headers tc : List String) (line : String) :
    (line ∈ MarkdownExtractorParser.cleanedLines headers tc →
      pyLen line > 1 ∧ ∀ h ∈ headers, strContains h line = false) ∧
    ((∃ h ∈ headers, strContains h line = true) →
      line ∉ MarkdownExtractorParser.cleanedLines headers tc) ∧
    (∀ level text,
      (MarkdownExtractorParser.hashes level ++ " " ++ text) ∈ headers →
      strContains (MarkdownExtractorParser.hashes level ++ " " ++ text) text = true) ∧
    (line ∈ MarkdownExtractorParser.cleanedLines headers tc ↔
      ((∃ l0 ∈ tc, pyStrip l0 = line) ∧ line ≠ "" ∧ pyLen line > 1 ∧
        ∀ h ∈ headers, strContains h line = false)) := by
  have hiff : line ∈ MarkdownExtractorParser.cleanedLines headers tc ↔
      ((∃ l0 ∈ tc, pyStrip l0 = line) ∧ line ≠ "" ∧ pyLen line > 1 ∧
        ∀ h ∈ headers, strContains h line = false) := by
    constructor
    · intro hin
      rw [MarkdownExtractorParser.cleanedLines, List.mem_filterMap] at hin
      obtain ⟨l0, hl0, hf⟩ := hin
      simp only at hf
      split at hf
      · rename_i hq
        split at hf
        · exact absurd hf (by simp)
        · rename_i hdup
          obtain rfl : pyStrip l0 = line := by injection hf
          obtain ⟨hne, hlen⟩ := (Bool.and_eq_true _ _).mp hq
          refine ⟨⟨l0, hl0, rfl⟩, by simpa using hne, of_decide_eq_true hlen, ?_⟩
          intro h hh
          have hfalse : MarkdownExtractorParser.isDupHeader headers (pyStrip l0) = false :=
            Bool.eq_false_iff.mpr hdup
          rw [MarkdownExtractorParser.isDupHeader, List.any_eq_false] at hfalse
          exact Bool.eq_false_iff.mpr (hfalse h hh)
      · exact absurd hf (by simp)
    · rintro ⟨⟨l0, hl0, rfl⟩, hne, hlen, hnosub⟩
      rw [MarkdownExtractorParser.cleanedLines, List.mem_filterMap]
      refine ⟨l0, hl0, ?_⟩
      simp only
      have hq : (pyStrip l0 != "" && decide (pyLen (pyStrip l0) > 1)) = true := by
        simp [hne, hlen]
      have hdup : MarkdownExtractorParser.isDupHeader headers (pyStrip l0) = false := by
        rw [MarkdownExtractorParser.isDupHeader, List.any_eq_false]
        intro h hh
        simp [hnosub h hh]
      rw [if_pos hq, if_neg (by simp [hdup])]
  refine ⟨fun hin => ⟨(hiff.mp hin).2.2.1, (hiff.mp hin).2.2.2⟩, ?_, ?_, hiff⟩
  · rintro ⟨h, hh, hc⟩ hin
    have := (hiff.mp hin).2.2.2 h hh
    rw [this] at hc
    exact absurd hc (by simp)
  · intro level text _
    exact strContains_append_self _ _

/-! ## Claim C4 — anchors inside the region -/

/-- C4, counterexample.  For the region content
`<a href="http://x">Click</a>`, `handle_endtag` (lines 171-178) flushes
the pending anchor text into `text_content` as the bold body entry
`**Click**` with the href discarded: the extractor has no links sequence,
and the rendered document nowhere contains the href `http://x`, contrary
to the claim that the pending text is flushed "together with its href into
the links sequence". -/
theorem c4_anchor_counterexample :
    (MarkdownExtractorParser.feed
      [.start "div" [("class", "courses-right-side")],
       .start "a" [("href", "http://x")], .text "Click", .endT "a",
       .endT "div"]).text_content = ["**Click**"] ∧
    strContains
      ((MarkdownExtractorParser.feed
        [.start "div" [("class", "courses-right-side")],
         .start "a" [("href", "http://x")], .text "Click", .endT "a",
         .endT "div"]).get_markdown_content "u" "t") "http://x" = false := by
  decide

/-- C4, amended.  While a pending absolute-href anchor is open, non-blank,
non-heading text inside the region accumulates into the pending anchor
text buffer rather than the body lines; on the anchor's end tag the
pending text is flushed — trimmed, dropped when empty — as the bold body
entry `**text**` appended to `text_content`, with the href discarded (not
into any links sequence), after which the pending anchor state is
cleared. -/
theorem c4_anchor_flush_amended (s : MarkdownExtractorParser) (href t : String)
    (hl : s.current_link = some (href, t)) :
    (∀ data, s.in_script = false → s.in_style = false →
      s.in_courses_right_side = true → pyStrip data ≠ "" →
      MarkdownExtractorParser.isHeadingTag s.current_tag = false →
      (s.handle_data data).current_link = some (href, t ++ pyStrip data) ∧
      (s.handle_data data).text_content = s.text_content) ∧
    (t ≠ "" →
      (s.handle_endtag "a").text_content = s.text_content ++ ["**" ++ pyStrip t ++ "**"] ∧
      (s.handle_endtag "a").current_link = none) ∧
    (t = "" →
      (s.handle_endtag "a").text_content = s.text_content ∧
      (s.handle_endtag "a").current_link = none) := by
  refine ⟨?_, ?_, ?_⟩
  · intro data hsc hst hr hne hhead
    rw [MarkdownExtractorParser.handle_data]
    simp [hsc, hst, hr, hne, hhead, hl]
  · intro hne
    rw [MarkdownExtractorParser.handle_endtag]
    simp [hl, hne]
  · intro heq
    rw [MarkdownExtractorParser.handle_endtag]
    simp [hl, heq]

/-- C4 witness: the amended theorem at the state reached after opening the
region and an absolute-href anchor with one accumulated fragment. -/
theorem c4_anchor_flush_amended_witness :
    (∀ data,
      (MarkdownExtractorParser.feed
        [.start "div" [("class", "courses-right-side")],
         .start "a" [("href", "http://x")], .text "Cli"]).in_script = false →
      (MarkdownExtractorParser.feed
        [.start "div" [("class", "courses-right-side")],
         .start "a" [("href", "http://x")], .text "Cli"]).in_style = false →
      (MarkdownExtractorParser.feed
        [.start "div" [("class", "courses-right-side")],
         .start "a" [("href", "http://x")], .text "Cli"]).in_courses_right_side = true →
      pyStrip data ≠ "" →
      MarkdownExtractorParser.isHeadingTag
        (MarkdownExtractorParser.feed
          [.start "div" [("class", "courses-right-side")],
           .start "a" [("href", "http://x")], .text "Cli"]).current_tag = false →
      ((MarkdownExtractorParser.feed
        [.start "div" [("class", "courses-right-side")],
         .start "a" [("href", "http://x")], .text "Cli"]).handle_data data).current_link =
          some ("http://x", "Cli" ++ pyStrip data) ∧
      ((MarkdownExtractorParser.feed
        [.start "div" [("class", "courses-right-side")],
         .start "a" [("href", "http://x")], .text "Cli"]).handle_data data).text_content =
          (MarkdownExtractorParser.feed
            [.start "div" [("class", "courses-right-side")],
             .start "a" [("href", "http://x")], .text "Cli"]).text_content) ∧
    (("Cli" : String) ≠ "" →
      ((MarkdownExtractorParser.feed
        [.start "div" [("class", "courses-right-side")],
         .start "a" [("href", "http://x")], .text "Cli"]).handle_endtag "a").text_content =
          (MarkdownExtractorParser.feed
            [.start "div" [("class", "courses-right-side")],
             .start "a" [("href", "http://x")], .text "Cli"]).text_content ++
            ["**" ++ pyStrip "Cli" ++ "**"] ∧
      ((MarkdownExtractorParser.feed
        [.start "div" [("class", "courses-right-side")],
         .start "a" [("href", "http://x")], .text "Cli"]).handle_endtag "a").current_link = none) ∧
    (("Cli" : String) = "" →
      ((MarkdownExtractorParser.feed
        [.start "div" [("class", "courses-right-side")],
         .start "a" [("href", "http://x")], .text "Cli"]).handle_endtag "a").text_content =
          (MarkdownExtractorParser.feed
            [.start "div" [("class", "courses-right-side")],
             .start "a" [("href", "http://x")], .text "Cli"]).text_content ∧
      ((MarkdownExtractorParser.feed
        [.start "div" [("class", "courses-right-side")],
         .start "a" [("href", "http://x")], .text "Cli"]).handle_endtag "a").current_link = none) :=
  c4_anchor_flush_amended _ "http://x" "Cli" (by decide)

/-! ## Claim C5 — counting versus persisting -/

/-- C5, counterexample.  A root page whose markup has no
`courses-right-side` content is fetched, `save_page_content` skips the
persist (`has_courses_right_side_content` is false), and `parse_course`
(lines 494-502) still increments `downloaded_pages` to `1` and adds the
URL to `visited_urls`: the claim that a fetched-but-not-persisted page
leaves `downloaded_count` unchanged fails. -/
theorem c5_count_counterexample :
    parseCourse (fun _ h => h)
      (fun u => if u == "root" then some [.text "hello"] else none)
      none "root" "http://b" =
    { downloaded_pages := 1, visited_urls := ["root"], saved_files := [],
      fetched_urls := ["root"] } := by
  decide

/-- C5, amended.  The coordinator increments `downloaded_pages` and adds
the URL to `visited_urls` after every successful fetch of the root or of a
lesson, regardless of whether the persist wrote a file: persist success
(`courses-right-side` content present) only determines whether the URL is
appended to the write log `saved_files`. -/
theorem c5_count_after_fetch_amended (fetch : String → Option (List HEvent))
    (limit : Option Int) (url : String) (rest : List String)
    (st : CrawlState) (evs : List HEvent)
    (h1 : limitReached limit st.downloaded_pages = false)
    (h2 : st.visited_urls.contains url = false)
    (h3 : fetch url = some evs) :
    processLessons fetch limit (url :: rest) st =
      processLessons fetch limit rest
        { downloaded_pages := st.downloaded_pages + 1,
          visited_urls := st.visited_urls ++ [url],
          saved_files :=
            if (MarkdownExtractorParser.feed evs).has_content then
              st.saved_files ++ [url]
            else st.saved_files,
          fetched_urls := st.fetched_urls ++ [url] } := by
  rw [processLessons]
  simp only [h1, h2, h3, Bool.false_eq_true, if_false, savePage]
  split <;> rfl

/-- C5 witness: the amended theorem with one lesson whose page has no
region content — it is still counted while nothing is written. -/
theorem c5_count_after_fetch_amended_witness :
    processLessons (fun _ => some [.text "hello"]) none ["l1"]
      { downloaded_pages := 0, visited_urls := [], saved_files := [],
        fetched_urls := [] } =
      processLessons (fun _ => some [.text "hello"]) none []
        { downloaded_pages := 0 + 1,
          visited_urls := [] ++ ["l1"],
          saved_files :=
            if (MarkdownExtractorParser.feed [.text "hello"]).has_content then
              [] ++ ["l1"]
            else [],
          fetched_urls := [] ++ ["l1"] } :=
  c5_count_after_fetch_amended (fun _ => some [.text "hello"]) none "l1" []
    { downloaded_pages := 0, visited_urls := [], saved_files := [],
      fetched_urls := [] } [.text "hello"] (by decide) (by decide) rfl

/-! ## Claim C6 — page limit honored before each lesson fetch -/

/-- A root page for the limit scenario: a `courses-right-side` region with
text (so the root is persisted) followed by five lesson anchors. -/
def c6RootEvents : List HEvent :=
  [.start "div" [("class", "courses-right-side")], .text "Course intro", .endT "div",
   .start "a" [("href", "http://x/lesson1")], .endT "a",
   .start "a" [("href", "http://x/lesson2")], .endT "a",
   .start "a" [("href", "http://x/lesson3")], .endT "a",
   .start "a" [("href", "http://x/lesson4")], .endT "a",
   .start "a" [("href", "http://x/lesson5")], .endT "a"]

/-- The fetch collaborator for the limit scenario: the root resolves to
`c6RootEvents`, every lesson page to a non-empty region. -/
def c6Fetch (u : String) : Option (List HEvent) :=
  if u == "root" then some c6RootEvents
  else some [.start "div" [("class", "courses-right-side")],
             .text "lesson body", .endT "div"]

/-- C6, confirmed.  With a positive `page_limit` already reached, the
lesson loop (line 506) stops before fetching the next lesson, leaving the
whole state — in particular the fetch log — unchanged; and in the concrete
scenario of a root page with `page_limit = 1` and five discovered lessons,
the coordinator persists exactly one document (the root) and finishes
without fetching any lesson. -/
theorem c6_page_limit_stop (n : Int) (fetch : String → Option (List HEvent))
    (lessons : List String) (st : CrawlState)
    (hn : 0 < n) (hle : n ≤ (st.downloaded_pages : Int)) :
    processLessons fetch (some n) lessons st = st ∧
    (extractLessonUrls "http://x" "root" (fun _ h => h)
      (SimpleHTMLParser.feed c6RootEvents).links).length = 5 ∧
    parseCourse (fun _ h => h) c6Fetch (some 1) "root" "http://x" =
      { downloaded_pages := 1, visited_urls := ["root"],
        saved_files := ["root"], fetched_urls := ["root"] } := by
  have hreach : limitReached (some n) st.downloaded_pages = true := by
    simp only [limitReached, Bool.and_eq_true, bne_iff_ne, ne_eq,
      decide_eq_true_eq]
    exact ⟨by omega, hle⟩
  refine ⟨?_, by decide, by decide⟩
  cases lessons with
  | nil => rfl
  | cons url rest => rw [processLessons]; simp [hreach]

/-- C6 witness: the limit-stop theorem at `n = 1` with one downloaded page
and a pending lesson. -/
theorem c6_page_limit_stop_witness :
    processLessons (fun _ => none) (some 1) ["http://x/lesson1"]
      { downloaded_pages := 1, visited_urls := ["root"],
        saved_files := ["root"], fetched_urls := ["root"] } =
      { downloaded_pages := 1, visited_urls := ["root"],
        saved_files := ["root"], fetched_urls := ["root"] } ∧
    (extractLessonUrls "http://x" "root" (fun _ h => h)
      (SimpleHTMLParser.feed c6RootEvents).links).length = 5 ∧
    parseCourse (fun _ h => h) c6Fetch (some 1) "root" "http://x" =
      { downloaded_pages := 1, visited_urls := ["root"],
        saved_files := ["root"], fetched_urls := ["root"] } :=
  c6_page_limit_stop 1 (fun _ => none) ["http://x/lesson1"]
    { downloaded_pages := 1, visited_urls := ["root"],
      saved_files := ["root"], fetched_urls := ["root"] }
    (by decide) (by decide)

/-! ## Claim C7 — lesson fetch failure is skipped, not fatal -/

/-- C7, confirmed.  When a lesson's fetch fails (`get_page_content`
returns `(None, None)` for HTTP, transport or any other error), the loop
records the fetch attempt and moves on to the remaining lessons with
`downloaded_pages`, `visited_urls` and `saved_files` untouched; in the
concrete scenario with two discovered lessons whose first fetch fails, the
run completes with the failed URL absent from `visited_urls` and the
second lesson processed. -/
theorem c7_fetch_failure_skip (fetch : String → Option (List HEvent))
    (limit : Option Int) (url : String) (rest : List String) (st : CrawlState)
    (h1 : limitReached limit st.downloaded_pages = false)
    (h2 : st.visited_urls.contains url = false)
    (h3 : fetch url = none) :
    processLessons fetch limit (url :: rest) st =
      processLessons fetch limit rest
        { st with fetched_urls := st.fetched_urls ++ [url] } ∧
    parseCourse (fun _ h => h)
      (fun u => if u == "root" then
          some [.start "div" [("class", "courses-right-side")],
                .text "Course intro", .endT "div",
                .start "a" [("href", "http://x/lesson1")], .endT "a",
                .start "a" [("href", "http://x/lesson2")], .endT "a"]
        else if u == "http://x/lesson2" then
          some [.start "div" [("class", "courses-right-side")],
                .text "lesson body", .endT "div"]
        else none)
      none "root" "http://b" =
      { downloaded_pages := 2, visited_urls := ["root", "http://x/lesson2"],
        saved_files := ["root", "http://x/lesson2"],
        fetched_urls := ["root", "http://x/lesson1", "http://x/lesson2"] } ∧
    ("http://x/lesson1" ∈
      (parseCourse (fun _ h => h)
        (fun u => if u == "root" then
            some [.start "div" [("class", "courses-right-side")],
                  .text "Course intro", .endT "div",
                  .start "a" [("href", "http://x/lesson1")], .endT "a",
                  .start "a" [("href", "http://x/lesson2")], .endT "a"]
          else if u == "http://x/lesson2" then
            some [.start "div" [("class", "courses-right-side")],
                  .text "lesson body", .endT "div"]
          else none)
        none "root" "http://b").visited_urls) = False := by
  refine ⟨?_, by decide, by decide⟩
  rw [processLessons, h2]
  simp [h1, h3]

/-- C7 witness: the skip theorem at a failing fetch for the first lesson. -/
theorem c7_fetch_failure_skip_witness :
    processLessons (fun _ => none) none ["http://x/lesson1"]
      { downloaded_pages := 1, visited_urls := ["root"],
        saved_files := ["root"], fetched_urls := ["root"] } =
      processLessons (fun _ => none) none []
        { downloaded_pages := 1, visited_urls := ["root"],
          saved_files := ["root"],
          fetched_urls := ["root"] ++ ["http://x/lesson1"] } ∧
    parseCourse (fun _ h => h)
      (fun u => if u == "root" then
          some [.start "div" [("class", "courses-right-side")],
                .text "Course intro", .endT "div",
                .start "a" [("href", "http://x/lesson1")], .endT "a",
                .start "a" [("href", "http://x/lesson2")], .endT "a"]
        else if u == "http://x/lesson2" then
          some [.start "div" [("class", "courses-right-side")],
                .text "lesson body", .endT "div"]
        else none)
      none "root" "http://b" =
      { downloaded_pages := 2, visited_urls := ["root", "http://x/lesson2"],
        saved_files := ["root", "http://x/lesson2"],
        fetched_urls := ["root", "http://x/lesson1", "http://x/lesson2"] } ∧
    ("http://x/lesson1" ∈
      (parseCourse (fun _ h => h)
        (fun u => if u == "root" then
            some [.start "div" [("class", "courses-right-side")],
                  .text "Course intro", .endT "div",
                  .start "a" [("href", "http://x/lesson1")], .endT "a",
                  .start "a" [("href", "http://x/lesson2")], .endT "a"]
          else if u == "http://x/lesson2" then
            some [.start "div" [("class", "courses-right-side")],
                  .text "lesson body", .endT "div"]
          else none)
        none "root" "http://b").visited_urls) = False :=
  c7_fetch_failure_skip (fun _ => none) none "http://x/lesson1" []
    { downloaded_pages := 1, visited_urls := ["root"],
      saved_files := ["root"], fetched_urls := ["root"] }
    (by decide) (by decide) rfl

/-! ## Claim C10 — page_limit = 0 behaves as no limit -/

lemma limitReached_zero (d : Nat) : limitReached (some 0) d = false := by
  simp [limitReached]

lemma limitReached_none (d : Nat) : limitReached none d = false := rfl

lemma processLessons_zero_eq_none (fetch : String → Option (List HEvent)) :
    ∀ (lessons : List String) (st : CrawlState),
      processLessons fetch (some 0) lessons st =
        processLessons fetch none lessons st := by
  intro lessons
  induction lessons with
  | nil => intro st; rfl
  | cons url rest ih =>
      intro st
      rw [processLessons, processLessons, limitReached_zero, limitReached_none]
      simp only [Bool.false_eq_true, if_false]
      split
      · exact ih st
      · cases fetch url with
        | none => exact ih _
        | some evs => exact ih _

/-- C10, confirmed.  `page_limit = 0` is falsy in the guard
`if self.page_limit and self.downloaded_pages >= self.page_limit`, so a
run with limit `0` is state-for-state identical to a run with no limit:
all discovered lessons are fetched and processed rather than zero pages. -/
theorem c10_zero_limit_is_no_limit (urljoin : String → String → String)
    (fetch : String → Option (List HEvent)) (startUrl baseUrl : String)
    (lessons : List String) (st : CrawlState) :
    parseCourse urljoin fetch (some 0) startUrl baseUrl =
      parseCourse urljoin fetch none startUrl baseUrl ∧
    processLessons fetch (some 0) lessons st =
      processLessons fetch none lessons st := by
  refine ⟨?_, processLessons_zero_eq_none fetch lessons st⟩
  rw [parseCourse, parseCourse]
  cases fetch startUrl with
  | none => rfl
  | some evs => exact processLessons_zero_eq_none fetch _ _

/-! ## Claim C8 — lesson-link selection heuristic -/

/-- C8, confirmed.  An anchor on the listing page contributes its href to
`SimpleHTMLParser.links` exactly when `selectsHref` holds, and
`selectsHref` holds if and only if the href case-insensitively contains
"lesson", or contains the literal keys `LESSON_ID` or `CHAPTER_ID`, or
lies under the course-listing path `/learning/course/` with one of those
query parameters — excluding hrefs ending in `.css` or `.js`.  (An absent
or empty href is never selected; an empty string contains none of the
patterns, so the equivalence is unconditional.) -/
theorem c8_link_filter (s : SimpleHTMLParser) (attrs : List (String × String))
    (href : String) :
    ((SimpleHTMLParser.handle_starttag s "a" attrs).links =
      s.links ++ (match findHref attrs with
                  | some h => if selectsHref h then [h] else []
                  | none => [])) ∧
    (selectsHref href = true ↔
      ((strContains (pyLower href) "lesson" = true ∨
        strContains href "LESSON_ID" = true ∨
        strContains href "CHAPTER_ID" = true ∨
        (strContains href "/learning/course/" = true ∧
          (strContains href "LESSON_ID=" = true ∨
           strContains href "CHAPTER_ID=" = true))) ∧
       pyEndsWith href ".css" = false ∧ pyEndsWith href ".js" = false)) := by
  constructor
  · rw [SimpleHTMLParser.handle_starttag]
    cases hf : findHref attrs with
    | none => simp
    | some h => by_cases hsel : selectsHref h = true <;> simp [hsel]
  · by_cases hemp : href = ""
    · subst hemp; decide
    · have hbne : (href != "") = true := by simpa using hemp
      rw [selectsHref, if_pos hbne]
      have hform : ∀ a b : Bool,
          ((if a = true then (if b = true then true else false) else false) = true ↔
            (a = true ∧ b = true)) := by decide
      rw [hform]
      simp only [Bool.or_eq_true, Bool.and_eq_true, Bool.not_eq_true']
      tauto

/-! ## Claim C9 — deterministic rendering -/

/-- C9, confirmed.  The rendered document is a pure function of the
classified content: the standalone `get_markdown_content` output depends
only on the `headers` and `text_content` buffers (no timestamp or other
run-dependent input exists in that renderer at all), and in the
`bitrix_course_parser.py` variant — whose Metadata block does embed the
retrieval timestamp — two renderings with different timestamps produce
line lists of equal length that agree everywhere except at the Metadata
timestamp line (index 5), so the heading, links and body sections are
byte-identical across runs. -/
theorem c9_render_deterministic (title url now1 now2 : String)
    (headings : List (Nat × String)) (links : List (String × String))
    (body : List String) (s1 s2 : MarkdownExtractorParser) (u t : String)
    (hh : s1.headers = s2.headers) (htc : s1.text_content = s2.text_content) :
    (renderMarkdownLines title url now1 headings links body).eraseIdx 5 =
      (renderMarkdownLines title url now2 headings links body).eraseIdx 5 ∧
    (renderMarkdownLines title url now1 headings links body).length =
      (renderMarkdownLines title url now2 headings links body).length ∧
    s1.get_markdown_content u t = s2.get_markdown_content u t := by
  refine ⟨rfl, ?_, ?_⟩
  · simp [renderMarkdownLines]
  · rw [MarkdownExtractorParser.get_markdown_content,
      MarkdownExtractorParser.get_markdown_content, hh, htc]

/-- C9 witness: the determinism theorem at two distinct timestamps and two
states that differ outside the classified buffers. -/
theorem c9_render_deterministic_witness :
    (renderMarkdownLines "T" "u" "2024-01-01" [(2, "H")] [("l", "http://x")]
      ["b1"]).eraseIdx 5 =
      (renderMarkdownLines "T" "u" "2025-12-31" [(2, "H")] [("l", "http://x")]
        ["b1"]).eraseIdx 5 ∧
    (renderMarkdownLines "T" "u" "2024-01-01" [(2, "H")] [("l", "http://x")]
      ["b1"]).length =
      (renderMarkdownLines "T" "u" "2025-12-31" [(2, "H")] [("l", "http://x")]
        ["b1"]).length ∧
    MarkdownExtractorParser.get_markdown_content
        { headers := ["### H"], text_content := ["b1"], current_tag := none,
          in_script := false, in_style := false, in_courses_right_side := false,
          div_nesting_level := 0, current_link := none } "u" "t" =
      MarkdownExtractorParser.get_markdown_content
        { headers := ["### H"], text_content := ["b1"], current_tag := some "p",
          in_script := true, in_style := false, in_courses_right_side := true,
          div_nesting_level := 3, current_link := none } "u" "t" :=
  c9_render_deterministic "T" "u" "2024-01-01" "2025-12-31" [(2, "H")]
    [("l", "http://x")] ["b1"]
    { headers := ["### H"], text_content := ["b1"], current_tag := none,
      in_script := false, in_style := false, in_courses_right_side := false,
      div_nesting_level := 0, current_link := none }
    { headers := ["### H"], text_content := ["b1"], current_tag := some "p",
      in_script := true, in_style := false, in_courses_right_side := true,
      div_nesting_level := 3, current_link := none } "u" "t" rfl rfl
